import Mathlib

/-!
Shallow embedding of the otter-pi OS-interaction layer.

Modules embedded:
- src/unix/convert.rs : CString / PathBuf conversions (byte-level paths).
- src/unix/posix.rs   : mkdtemp wrapper, create_temp_dir, get_temp_dir_template.
- src/unix/temporary_directory.rs : TemporaryDirectory (RAII temp dir).
- src/linux/sysfs.rs  : Sysfs attribute store with a lazily populated path cache.

Machine-level state (the filesystem seen through std::fs and the POSIX
last-error channel errno) is made explicit: byte-path filesystems are a record
of existing directories and files, and the foreign mkdtemp primitive is a
parameter of the functions that call it, constrained by the contract stated in
its documentation comment in src/unix/posix.rs.
-/

namespace OtterPi

/-- Association-list lookup, modelling HashMap::get (first matching key). -/
def assocLookup {α β : Type} [DecidableEq α] : List (α × β) → α → Option β
  | [], _ => none
  | (k', v) :: rest, k => if k = k' then some v else assocLookup rest k

/-- Association-list insert, modelling HashMap::insert (replace an existing
binding for the key, otherwise add a new one). -/
def assocInsert {α β : Type} [DecidableEq α] : List (α × β) → α → β → List (α × β)
  | [], k, v => [(k, v)]
  | (k', v') :: rest, k, v =>
    if k = k' then (k, v) :: rest else (k', v') :: assocInsert rest k v

theorem assocLookup_insert_self {α β : Type} [DecidableEq α]
    (l : List (α × β)) (k : α) (v : β) :
    assocLookup (assocInsert l k v) k = some v := by
  induction l with
  | nil => simp [assocInsert, assocLookup]
  | cons hd tl ih =>
    by_cases h : k = hd.1
    · simp [assocInsert, assocLookup, h]
    · simp [assocInsert, assocLookup, h, Ne.symm h, ih]

theorem assocLookup_insert_of_ne {α β : Type} [DecidableEq α]
    (l : List (α × β)) (k₀ k : α) (v : β) (h : k ≠ k₀) :
    assocLookup (assocInsert l k₀ v) k = assocLookup l k := by
  induction l with
  | nil => simp [assocInsert, assocLookup, h]
  | cons hd tl ih =>
    by_cases hk : k₀ = hd.1
    · have hne : k ≠ hd.1 := hk ▸ h
      simp [assocInsert, assocLookup, hk, hne]
    · by_cases hk' : k = hd.1
      · simp [assocInsert, assocLookup, hk, hk']
      · simp [assocInsert, assocLookup, hk, hk', ih]

theorem assocLookup_filter_eq_none {α β : Type} [DecidableEq α]
    (l : List (α × β)) (f : α → Bool) (k : α) (hk : f k = true) :
    assocLookup (l.filter (fun kv => ! f kv.1)) k = none := by
  induction l with
  | nil => simp [assocLookup]
  | cons hd tl ih =>
    by_cases h : f hd.1 = true
    · simp [List.filter_cons, h, ih]
    · have hne : k ≠ hd.1 := fun he => h (he ▸ hk)
      simp [List.filter_cons, h, assocLookup, hne, ih]

/-! ## Byte-level paths (unix modules)

A PathBuf on unix is an arbitrary byte sequence (OsString bytes); a CString is
a byte sequence with no interior nul, its terminating nul not stored (matching
CString::into_bytes). -/

/-- PathBuf modelled as its OsString byte content. -/
abbrev BPath := List Nat

/-- CString modelled as its byte content (terminator excluded) together with
the CString invariant that no nul byte occurs. -/
abbrev CStringM := { l : List Nat // 0 ∉ l }

/-- Embedding of convert::c_string_to_path_buf:
PathBuf::from(OsString::from_vec(c_string.into_bytes())). -/
def c_string_to_path_buf (c : CStringM) : BPath := c.val

/-- Embedding of convert::path_buf_to_c_string:
CString::new(path_buf.into_os_string().into_vec()); CString::new fails with
NulError (modelled as Unit) exactly when the bytes contain a nul. -/
def path_buf_to_c_string (p : BPath) : Except Unit CStringM :=
  if h : 0 ∈ p then .error () else .ok ⟨p, h⟩

/-! ## POSIX world state and the mkdtemp foreign primitive -/

/-- Machine state visible to the unix modules: the set of existing
directories, the regular files (path to contents), and the POSIX last-error
channel errno read by io::Error::last_os_error(). -/
structure SysWorld where
  dirs : List BPath
  files : List (BPath × List Nat)
  errnoVal : Nat
deriving DecidableEq

/-- Behaviour of the foreign mkdtemp call: given the template buffer and the
pre-call machine state, it yields either the mutated buffer (success) or none
(failure, the null return), together with the post-call machine state. -/
def MkdtempFn : Type := CStringM → SysWorld → Option CStringM × SysWorld

/-- Contract stated in the mkdtemp documentation comment in src/unix/posix.rs
that is relevant to uniqueness: on success the named directory did not exist
before the call and exists after it. -/
def MkdtempCreatesFresh (mk : MkdtempFn) : Prop :=
  ∀ tmpl w out w', mk tmpl w = (some out, w') →
    out.val ∉ w.dirs ∧ out.val ∈ w'.dirs

/-- Contract stated in the mkdtemp documentation comment in src/unix/posix.rs
that is relevant to the shape of the result: only the six trailing placeholder
bytes of the template are modified in place, and the named directory exists
after the call. -/
def MkdtempMutatesSuffix (mk : MkdtempFn) : Prop :=
  ∀ tmpl w out w', mk tmpl w = (some out, w') →
    out.val.length = tmpl.val.length ∧
    out.val.take (tmpl.val.length - 6) = tmpl.val.take (tmpl.val.length - 6) ∧
    out.val ∈ w'.dirs

/-- The placeholder suffix pushed onto the temp-dir path: the path separator
followed by the bytes of "XXXXXX" (PathBuf::push adds the separator). -/
def xSuffix : List Nat := 47 :: List.replicate 6 88

/-- Embedding of posix::get_temp_dir_template: env::temp_dir() (here the
parameter tempDir) with "XXXXXX" pushed, converted to a CString; fails with
NulError when the bytes contain a nul. -/
def get_temp_dir_template (tempDir : BPath) : Except Unit CStringM :=
  path_buf_to_c_string (tempDir ++ xSuffix)

/-- Error type of posix::create_temp_dir: a NulError converted into an
io::Error, or the io::Error wrapping the OS error code read from errno. -/
inductive TempDirError : Type
  | nulError : TempDirError
  | osError : Nat → TempDirError
deriving DecidableEq

/-- Embedding of posix::create_temp_dir: build the template, call mkdtemp,
read the last-error channel immediately after the call, rebuild the CString
from the (possibly mutated) buffer, and branch on the null test. The error
value used on the failure branch is the errno component of the machine state
exactly as mkdtemp left it, with no intervening fallible operation. -/
def create_temp_dir (mk : MkdtempFn) (tempDir : BPath) (w : SysWorld) :
    Except TempDirError (BPath × SysWorld) :=
  match get_temp_dir_template tempDir with
  | .error _ => .error .nulError
  | .ok template =>
    match mk template w with
    | (none, w') => .error (.osError w'.errnoVal)
    | (some buf, w') => .ok (c_string_to_path_buf buf, w')

/-- Embedding of unix::temporary_directory::TemporaryDirectory: an owned path
to a temporary directory. -/
structure TemporaryDirectory where
  path : BPath
deriving DecidableEq

/-- Embedding of TemporaryDirectory::new: delegates to posix::create_temp_dir
and wraps the resulting path. -/
def TemporaryDirectory.new (mk : MkdtempFn) (tempDir : BPath) (w : SysWorld) :
    Except TempDirError (TemporaryDirectory × SysWorld) :=
  match create_temp_dir mk tempDir w with
  | .ok (p, w') => .ok (⟨p⟩, w')
  | .error e => .error e

/-- Byte-path q is the directory d itself or lies strictly beneath it. -/
def isUnderPath (d q : BPath) : Bool :=
  decide (q = d) || decide (d ++ [47] = q.take (d.length + 1))

/-- Embedding of fs::remove_dir_all applied to the world: every directory and
file at or beneath d is removed. -/
def remove_dir_all (w : SysWorld) (d : BPath) : SysWorld :=
  { w with
    dirs := w.dirs.filter (fun q => ! isUnderPath d q),
    files := w.files.filter (fun kv => ! isUnderPath d kv.1) }

/-- Embedding of the Drop impl of unix::temporary_directory::TemporaryDirectory:
let _ = fs::remove_dir_all(&self.path). The primitive may fail (removalOk
models whether the OS permits the removal); the Result is discarded, so the
drop itself always returns a world and never an error. -/
def TemporaryDirectory.dropRun (removalOk : Bool) (t : TemporaryDirectory)
    (w : SysWorld) : SysWorld :=
  if removalOk then remove_dir_all w t.path else w

/-! ## Sysfs attribute store (src/linux/sysfs.rs)

Attribute identifiers and resolved paths are modelled at the component level
(a path is its list of components); PathBuf::join of a root with a relative
path appends the components. -/

/-- Component-level path used by the sysfs module. -/
abbrev SPath := List String

/-- PathBuf::join for a root and a relative attribute path. -/
def pathJoin (root ap : SPath) : SPath := root ++ ap

/-- Continuation byte of a UTF-8 sequence. -/
def isCont (b : Nat) : Bool := decide (128 ≤ b ∧ b ≤ 191)

/-- UTF-8 validity of a byte sequence, as checked by String::from_utf8 /
fs::read_to_string (overlong encodings and surrogates rejected). -/
def utf8Valid : List Nat → Bool
  | [] => true
  | b :: rest =>
    if b ≤ 127 then utf8Valid rest
    else if 194 ≤ b ∧ b ≤ 223 then
      match rest with
      | c1 :: r => isCont c1 && utf8Valid r
      | [] => false
    else if b = 224 then
      match rest with
      | c1 :: c2 :: r => decide (160 ≤ c1 ∧ c1 ≤ 191) && isCont c2 && utf8Valid r
      | _ => false
    else if 225 ≤ b ∧ b ≤ 236 then
      match rest with
      | c1 :: c2 :: r => isCont c1 && isCont c2 && utf8Valid r
      | _ => false
    else if b = 237 then
      match rest with
      | c1 :: c2 :: r => decide (128 ≤ c1 ∧ c1 ≤ 159) && isCont c2 && utf8Valid r
      | _ => false
    else if 238 ≤ b ∧ b ≤ 239 then
      match rest with
      | c1 :: c2 :: r => isCont c1 && isCont c2 && utf8Valid r
      | _ => false
    else if b = 240 then
      match rest with
      | c1 :: c2 :: c3 :: r =>
        decide (144 ≤ c1 ∧ c1 ≤ 191) && isCont c2 && isCont c3 && utf8Valid r
      | _ => false
    else if 241 ≤ b ∧ b ≤ 243 then
      match rest with
      | c1 :: c2 :: c3 :: r => isCont c1 && isCont c2 && isCont c3 && utf8Valid r
      | _ => false
    else if b = 244 then
      match rest with
      | c1 :: c2 :: c3 :: r =>
        decide (128 ≤ c1 ∧ c1 ≤ 143) && isCont c2 && isCont c3 && utf8Valid r
      | _ => false
    else false

/-- io::Error kinds distinguished by the sysfs layer. -/
inductive IoErrorKind : Type
  | notFoundErr : IoErrorKind
  | invalidData : IoErrorKind
deriving DecidableEq

/-- Filesystem seen by the sysfs module: existing directories and regular
files with their byte contents, at component-level paths. -/
structure SysfsFs where
  dirs : List SPath
  files : List (SPath × List Nat)
deriving DecidableEq

/-- Embedding of fs::read: the file's bytes, or NotFound. -/
def fs_read (fs : SysfsFs) (p : SPath) : Except IoErrorKind (List Nat) :=
  match assocLookup fs.files p with
  | some c => .ok c
  | none => .error .notFoundErr

/-- Embedding of fs::read_to_string: the file's bytes when they are valid
UTF-8 (InvalidData otherwise), or NotFound. -/
def fs_read_to_string (fs : SysfsFs) (p : SPath) : Except IoErrorKind (List Nat) :=
  match assocLookup fs.files p with
  | some c => if utf8Valid c then .ok c else .error .invalidData
  | none => .error .notFoundErr

/-- Embedding of fs::write: creates or truncates the file when its parent
directory exists, otherwise NotFound. -/
def fs_write (fs : SysfsFs) (p : SPath) (contents : List Nat) :
    Except IoErrorKind SysfsFs :=
  if p.dropLast ∈ fs.dirs then
    .ok { fs with files := assocInsert fs.files p contents }
  else .error .notFoundErr

/-- Embedding of the Sysfs struct: its only field is the RefCell-held path
cache from attribute paths to resolved paths. The sysfs root is not part of
the store; it is a module-level constant ("/sys", or in test builds a
thread-local set once per thread) supplied here as an ambient parameter of
each operation. -/
structure Sysfs where
  path_cache : List (SPath × SPath)
deriving DecidableEq

/-- Embedding of Sysfs::new: an empty path cache, no root parameter. -/
def Sysfs.new : Sysfs := ⟨[]⟩

/-- Embedding of Sysfs::cache_path: insert into the path cache. -/
def Sysfs.cache_path (s : Sysfs) (attribute_path path : SPath) : Sysfs :=
  ⟨assocInsert s.path_cache attribute_path path⟩

/-- Embedding of Sysfs::get_cached_path: the lookup whose .expect panics when
the entry is absent; none models that panic. -/
def Sysfs.get_cached_path (s : Sysfs) (path : SPath) : Option SPath :=
  assocLookup s.path_cache path

/-- Embedding of Sysfs::has_cached_path. -/
def Sysfs.has_cached_path (s : Sysfs) (path : SPath) : Bool :=
  (assocLookup s.path_cache path).isSome

/-- Embedding of Sysfs::resolve_attribute_path: join of the ambient sysfs
root with the attribute path. -/
def Sysfs.resolve_attribute_path (root ap : SPath) : SPath := pathJoin root ap

/-- Embedding of Sysfs::resolve_path: populate the cache when the attribute
path is absent, then return the cached entry; none models the panic inside
get_cached_path. -/
def Sysfs.resolve_path (root : SPath) (s : Sysfs) (ap : SPath) :
    Option (SPath × Sysfs) :=
  let s' := if s.has_cached_path ap then s
            else s.cache_path ap (Sysfs.resolve_attribute_path root ap)
  match s'.get_cached_path ap with
  | some p => some (p, s')
  | none => none

/-- Embedding of Sysfs::read: resolve, then fs::read at the resolved path. -/
def Sysfs.read (root : SPath) (s : Sysfs) (ap : SPath) (fs : SysfsFs) :
    Option (Except IoErrorKind (List Nat) × Sysfs) :=
  match Sysfs.resolve_path root s ap with
  | some (p, s') => some (fs_read fs p, s')
  | none => none

/-- Embedding of Sysfs::read_to_string: resolve, then fs::read_to_string at
the resolved path. -/
def Sysfs.read_to_string (root : SPath) (s : Sysfs) (ap : SPath) (fs : SysfsFs) :
    Option (Except IoErrorKind (List Nat) × Sysfs) :=
  match Sysfs.resolve_path root s ap with
  | some (p, s') => some (fs_read_to_string fs p, s')
  | none => none

/-- Embedding of Sysfs::write: resolve, then fs::write at the resolved path. -/
def Sysfs.write (root : SPath) (s : Sysfs) (ap : SPath) (contents : List Nat)
    (fs : SysfsFs) : Option (Except IoErrorKind SysfsFs × Sysfs) :=
  match Sysfs.resolve_path root s ap with
  | some (p, s') => some (fs_write fs p contents, s')
  | none => none

deriving instance DecidableEq for Except

/-! ## Characterization of path resolution -/

theorem resolve_path_of_cached (root : SPath) (s : Sysfs) (ap p : SPath)
    (h : assocLookup s.path_cache ap = some p) :
    Sysfs.resolve_path root s ap = some (p, s) := by
  simp [Sysfs.resolve_path, Sysfs.has_cached_path, Sysfs.get_cached_path, h]

theorem resolve_path_of_uncached (root : SPath) (s : Sysfs) (ap : SPath)
    (h : assocLookup s.path_cache ap = none) :
    Sysfs.resolve_path root s ap =
      some (pathJoin root ap, s.cache_path ap (pathJoin root ap)) := by
  simp [Sysfs.resolve_path, Sysfs.has_cached_path, Sysfs.get_cached_path, h,
    Sysfs.cache_path, Sysfs.resolve_attribute_path, assocLookup_insert_self]

theorem sysfs_read_eq (root : SPath) (s : Sysfs) (ap : SPath) (fs : SysfsFs)
    (p : SPath) (s' : Sysfs) (h : Sysfs.resolve_path root s ap = some (p, s')) :
    Sysfs.read root s ap fs = some (fs_read fs p, s') := by
  simp [Sysfs.read, h]

theorem sysfs_read_to_string_eq (root : SPath) (s : Sysfs) (ap : SPath)
    (fs : SysfsFs) (p : SPath) (s' : Sysfs)
    (h : Sysfs.resolve_path root s ap = some (p, s')) :
    Sysfs.read_to_string root s ap fs = some (fs_read_to_string fs p, s') := by
  simp [Sysfs.read_to_string, h]

theorem sysfs_write_eq (root : SPath) (s : Sysfs) (ap : SPath)
    (contents : List Nat) (fs : SysfsFs) (p : SPath) (s' : Sysfs)
    (h : Sysfs.resolve_path root s ap = some (p, s')) :
    Sysfs.write root s ap contents fs = some (fs_write fs p contents, s') := by
  simp [Sysfs.write, h]

theorem fs_read_of_lookup (fs : SysfsFs) (p : SPath) (c : List Nat)
    (h : assocLookup fs.files p = some c) : fs_read fs p = .ok c := by
  simp [fs_read, h]

theorem fs_read_of_absent (fs : SysfsFs) (p : SPath)
    (h : assocLookup fs.files p = none) : fs_read fs p = .error .notFoundErr := by
  simp [fs_read, h]

theorem fs_read_to_string_of_lookup (fs : SysfsFs) (p : SPath) (c : List Nat)
    (h : assocLookup fs.files p = some c) :
    fs_read_to_string fs p = if utf8Valid c then .ok c else .error .invalidData := by
  simp [fs_read_to_string, h]

theorem fs_read_to_string_of_absent (fs : SysfsFs) (p : SPath)
    (h : assocLookup fs.files p = none) :
    fs_read_to_string fs p = .error .notFoundErr := by
  simp [fs_read_to_string, h]

theorem fs_write_of_parent (fs : SysfsFs) (p : SPath) (contents : List Nat)
    (h : p.dropLast ∈ fs.dirs) :
    fs_write fs p contents = .ok { fs with files := assocInsert fs.files p contents } := by
  simp [fs_write, h]

theorem fs_write_of_no_parent (fs : SysfsFs) (p : SPath) (contents : List Nat)
    (h : p.dropLast ∉ fs.dirs) :
    fs_write fs p contents = .error .notFoundErr := by
  simp [fs_write, h]

/-- Claim C2: path resolution is pure memoization. On each call, a cached
identifier returns its cached value with the store unchanged; an uncached
identifier gets root joined with the identifier computed and inserted, after
which the cache holds exactly that value for it; and no resolution ever
removes or replaces an existing cache entry, so an identifier always maps to
the same resolved path for the life of the store. -/
theorem resolve_path_memoizes (root : SPath) (s : Sysfs) (ap : SPath) :
    (∀ p, assocLookup s.path_cache ap = some p →
        Sysfs.resolve_path root s ap = some (p, s)) ∧
    (assocLookup s.path_cache ap = none →
        Sysfs.resolve_path root s ap =
          some (pathJoin root ap, s.cache_path ap (pathJoin root ap)) ∧
        assocLookup (s.cache_path ap (pathJoin root ap)).path_cache ap =
          some (pathJoin root ap)) ∧
    (∀ k p q s', assocLookup s.path_cache k = some p →
        Sysfs.resolve_path root s ap = some (q, s') →
        assocLookup s'.path_cache k = some p) := by
  refine ⟨fun p h => resolve_path_of_cached root s ap p h,
    fun h => ⟨resolve_path_of_uncached root s ap h, ?_⟩, ?_⟩
  · exact assocLookup_insert_self s.path_cache ap (pathJoin root ap)
  · intro k p q s' hk hres
    cases hc : assocLookup s.path_cache ap with
    | some pc =>
      rw [resolve_path_of_cached root s ap pc hc] at hres
      simp only [Option.some.injEq, Prod.mk.injEq] at hres
      rw [← hres.2]
      exact hk
    | none =>
      rw [resolve_path_of_uncached root s ap hc] at hres
      simp only [Option.some.injEq, Prod.mk.injEq] at hres
      rw [← hres.2]
      have hne : k ≠ ap := fun he => by rw [he, hc] at hk; exact Option.noConfusion hk
      rw [Sysfs.cache_path]
      rw [assocLookup_insert_of_ne s.path_cache ap k (pathJoin root ap) hne]
      exact hk

theorem resolve_path_memoizes_witness :
    Sysfs.resolve_path ["sys"] ⟨[(["a"], ["sys", "a"])]⟩ ["a"] =
      some (["sys", "a"], ⟨[(["a"], ["sys", "a"])]⟩) ∧
    Sysfs.resolve_path ["sys"] Sysfs.new ["b"] =
      some (pathJoin ["sys"] ["b"], Sysfs.cache_path Sysfs.new ["b"] (pathJoin ["sys"] ["b"])) ∧
    assocLookup (⟨[(["a"], ["sys", "a"]), (["b"], ["sys", "b"])]⟩ : Sysfs).path_cache
      ["a"] = some ["sys", "a"] :=
  ⟨(resolve_path_memoizes ["sys"] ⟨[(["a"], ["sys", "a"])]⟩ ["a"]).1 ["sys", "a"] (by decide),
   ((resolve_path_memoizes ["sys"] Sysfs.new ["b"]).2.1 (by decide)).1,
   (resolve_path_memoizes ["sys"] ⟨[(["a"], ["sys", "a"])]⟩ ["b"]).2.2
     ["a"] ["sys", "a"] (pathJoin ["sys"] ["b"])
     ⟨[(["a"], ["sys", "a"]), (["b"], ["sys", "b"])]⟩ (by decide) (by decide)⟩

/-- Claim C9: Sysfs::read, read_to_string and write never panic: the internal
get_cached_path lookup (whose absence case is the panic, modelled as none) is
unreachable because resolve_path inserts the entry first, so every operation
returns some value; ordinary I/O failure on a nonexistent path yields a
NotFound error value instead. -/
theorem sysfs_ops_no_panic (root : SPath) (s : Sysfs) (ap : SPath) :
    (Sysfs.resolve_path root s ap).isSome = true ∧
    (∀ fs, (Sysfs.read root s ap fs).isSome = true ∧
      (Sysfs.read_to_string root s ap fs).isSome = true ∧
      ∀ contents, (Sysfs.write root s ap contents fs).isSome = true) ∧
    (∀ fs p s', Sysfs.resolve_path root s ap = some (p, s') →
      assocLookup fs.files p = none →
      Sysfs.read root s ap fs = some (.error .notFoundErr, s') ∧
      Sysfs.read_to_string root s ap fs = some (.error .notFoundErr, s')) ∧
    (∀ fs p s' contents, Sysfs.resolve_path root s ap = some (p, s') →
      p.dropLast ∉ fs.dirs →
      Sysfs.write root s ap contents fs = some (.error .notFoundErr, s')) := by
  obtain ⟨p0, s0, hres⟩ : ∃ p s', Sysfs.resolve_path root s ap = some (p, s') := by
    cases hc : assocLookup s.path_cache ap with
    | some p => exact ⟨p, s, resolve_path_of_cached root s ap p hc⟩
    | none => exact ⟨_, _, resolve_path_of_uncached root s ap hc⟩
  refine ⟨by rw [hres]; rfl, fun fs => ?_, ?_, ?_⟩
  · exact ⟨by rw [sysfs_read_eq root s ap fs p0 s0 hres]; rfl,
      by rw [sysfs_read_to_string_eq root s ap fs p0 s0 hres]; rfl,
      fun contents => by rw [sysfs_write_eq root s ap contents fs p0 s0 hres]; rfl⟩
  · intro fs p s' h hnone
    constructor
    · rw [sysfs_read_eq root s ap fs p s' h, fs_read_of_absent fs p hnone]
    · rw [sysfs_read_to_string_eq root s ap fs p s' h,
        fs_read_to_string_of_absent fs p hnone]
  · intro fs p s' contents h hdirs
    rw [sysfs_write_eq root s ap contents fs p s' h,
      fs_write_of_no_parent fs p contents hdirs]

theorem sysfs_ops_no_panic_witness :
    (Sysfs.resolve_path ["r"] Sysfs.new ["a"]).isSome = true ∧
    Sysfs.read ["r"] Sysfs.new ["a"] ⟨[], []⟩ =
      some (.error .notFoundErr, Sysfs.cache_path Sysfs.new ["a"] ["r", "a"]) ∧
    Sysfs.write ["x"] Sysfs.new ["a"] [48] ⟨[], []⟩ =
      some (.error .notFoundErr, Sysfs.cache_path Sysfs.new ["a"] ["x", "a"]) :=
  ⟨(sysfs_ops_no_panic ["r"] Sysfs.new ["a"]).1,
   ((sysfs_ops_no_panic ["r"] Sysfs.new ["a"]).2.2.1 ⟨[], []⟩ ["r", "a"]
     (Sysfs.cache_path Sysfs.new ["a"] ["r", "a"]) (by decide) (by decide)).1,
   (sysfs_ops_no_panic ["x"] Sysfs.new ["a"]).2.2.2 ⟨[], []⟩ ["x", "a"]
     (Sysfs.cache_path Sysfs.new ["a"] ["x", "a"]) [48] (by decide) (by decide)⟩

/-- Claim C1: a successful write of contents to an identifier followed by a
read of the same identifier with no intervening write returns exactly those
contents; the read resolves through the same cache entry the write used, so
the cached path resolution cannot alter which file is written and then
read. -/
theorem write_read_roundtrip (root : SPath) (s : Sysfs) (ap : SPath)
    (contents : List Nat) (fs fs' : SysfsFs) (s₁ : Sysfs)
    (h : Sysfs.write root s ap contents fs = some (.ok fs', s₁)) :
    Sysfs.read root s₁ ap fs' = some (.ok contents, s₁) := by
  cases hc : assocLookup s.path_cache ap with
  | some p =>
    rw [sysfs_write_eq root s ap contents fs p s
        (resolve_path_of_cached root s ap p hc)] at h
    simp only [Option.some.injEq, Prod.mk.injEq] at h
    obtain ⟨h1, h2⟩ := h
    by_cases hd : p.dropLast ∈ fs.dirs
    · rw [fs_write_of_parent fs p contents hd] at h1
      simp only [Except.ok.injEq] at h1
      rw [sysfs_read_eq root s₁ ap fs' p s₁
          (resolve_path_of_cached root s₁ ap p (h2 ▸ hc)),
        fs_read_of_lookup fs' p contents
          (by rw [← h1]; exact assocLookup_insert_self fs.files p contents)]
    · rw [fs_write_of_no_parent fs p contents hd] at h1
      exact absurd h1 (by simp)
  | none =>
    rw [sysfs_write_eq root s ap contents fs (pathJoin root ap)
        (s.cache_path ap (pathJoin root ap))
        (resolve_path_of_uncached root s ap hc)] at h
    simp only [Option.some.injEq, Prod.mk.injEq] at h
    obtain ⟨h1, h2⟩ := h
    by_cases hd : (pathJoin root ap).dropLast ∈ fs.dirs
    · rw [fs_write_of_parent fs (pathJoin root ap) contents hd] at h1
      simp only [Except.ok.injEq] at h1
      have hcached : assocLookup s₁.path_cache ap = some (pathJoin root ap) := by
        rw [← h2, Sysfs.cache_path]
        exact assocLookup_insert_self s.path_cache ap (pathJoin root ap)
      rw [sysfs_read_eq root s₁ ap fs' (pathJoin root ap) s₁
          (resolve_path_of_cached root s₁ ap (pathJoin root ap) hcached),
        fs_read_of_lookup fs' (pathJoin root ap) contents
          (by rw [← h1]
              exact assocLookup_insert_self fs.files (pathJoin root ap) contents)]
    · rw [fs_write_of_no_parent fs (pathJoin root ap) contents hd] at h1
      exact absurd h1 (by simp)

theorem write_read_roundtrip_witness :
    Sysfs.read ["r"] ⟨[(["a"], ["r", "a"])]⟩ ["a"] ⟨[["r"]], [(["r", "a"], [49])]⟩ =
      some (.ok [49], ⟨[(["a"], ["r", "a"])]⟩) :=
  write_read_roundtrip ["r"] Sysfs.new ["a"] [49] ⟨[["r"]], []⟩
    ⟨[["r"]], [(["r", "a"], [49])]⟩ ⟨[(["a"], ["r", "a"])]⟩ (by decide)

/-- Claim C8: read_to_string behaves as read on the same identifier — same
resolution, same resulting store, same error on I/O failure — except that when
the bytes at the resolved path are not valid UTF-8 it fails with the
InvalidData (invalid encoding) error instead of returning the bytes. -/
theorem read_to_string_refines_read (root : SPath) (s : Sysfs) (ap : SPath)
    (fs : SysfsFs) :
    (∀ c s', Sysfs.read root s ap fs = some (.ok c, s') →
      Sysfs.read_to_string root s ap fs =
        some (if utf8Valid c then .ok c else .error .invalidData, s')) ∧
    (∀ e s', Sysfs.read root s ap fs = some (.error e, s') →
      Sysfs.read_to_string root s ap fs = some (.error e, s')) := by
  obtain ⟨p0, s0, hres⟩ : ∃ p s', Sysfs.resolve_path root s ap = some (p, s') := by
    cases hc : assocLookup s.path_cache ap with
    | some p => exact ⟨p, s, resolve_path_of_cached root s ap p hc⟩
    | none => exact ⟨_, _, resolve_path_of_uncached root s ap hc⟩
  constructor
  · intro c s' h
    rw [sysfs_read_eq root s ap fs p0 s0 hres] at h
    simp only [Option.some.injEq, Prod.mk.injEq] at h
    obtain ⟨h1, h2⟩ := h
    cases hl : assocLookup fs.files p0 with
    | some c' =>
      rw [fs_read_of_lookup fs p0 c' hl] at h1
      simp only [Except.ok.injEq] at h1
      rw [sysfs_read_to_string_eq root s ap fs p0 s0 hres,
        fs_read_to_string_of_lookup fs p0 c' hl, h1, h2]
    | none =>
      rw [fs_read_of_absent fs p0 hl] at h1
      exact absurd h1 (by simp)
  · intro e s' h
    rw [sysfs_read_eq root s ap fs p0 s0 hres] at h
    simp only [Option.some.injEq, Prod.mk.injEq] at h
    obtain ⟨h1, h2⟩ := h
    cases hl : assocLookup fs.files p0 with
    | some c' =>
      rw [fs_read_of_lookup fs p0 c' hl] at h1
      exact absurd h1 (by simp)
    | none =>
      rw [fs_read_of_absent fs p0 hl] at h1
      simp only [Except.error.injEq] at h1
      rw [sysfs_read_to_string_eq root s ap fs p0 s0 hres,
        fs_read_to_string_of_absent fs p0 hl, h1, h2]

theorem read_to_string_refines_read_witness :
    Sysfs.read_to_string ["r"] Sysfs.new ["a"] ⟨[["r"]], [(["r", "a"], [255])]⟩ =
      some (.error .invalidData, Sysfs.cache_path Sysfs.new ["a"] ["r", "a"]) ∧
    Sysfs.read_to_string ["r"] Sysfs.new ["a"] ⟨[["r"]], [(["r", "a"], [49])]⟩ =
      some (.ok [49], Sysfs.cache_path Sysfs.new ["a"] ["r", "a"]) ∧
    Sysfs.read_to_string ["r"] Sysfs.new ["b"] ⟨[["r"]], []⟩ =
      some (.error .notFoundErr, Sysfs.cache_path Sysfs.new ["b"] ["r", "b"]) :=
  ⟨(read_to_string_refines_read ["r"] Sysfs.new ["a"]
      ⟨[["r"]], [(["r", "a"], [255])]⟩).1 [255]
      (Sysfs.cache_path Sysfs.new ["a"] ["r", "a"]) (by decide),
   (read_to_string_refines_read ["r"] Sysfs.new ["a"]
      ⟨[["r"]], [(["r", "a"], [49])]⟩).1 [49]
      (Sysfs.cache_path Sysfs.new ["a"] ["r", "a"]) (by decide),
   (read_to_string_refines_read ["r"] Sysfs.new ["b"] ⟨[["r"]], []⟩).2
      .notFoundErr (Sysfs.cache_path Sysfs.new ["b"] ["r", "b"]) (by decide)⟩

/-- Claim C7 counterexample: the code exposes no with_root constructor and the
store carries no root: the Sysfs struct holds only the path cache, so the very
same store value (Sysfs.new) resolves the same identifier to different paths
under different ambient roots — resolution cannot be bound to a caller-supplied
per-store root fixed at construction, refuting the claimed contract. -/
theorem with_root_counterexample :
    Option.map Prod.fst (Sysfs.resolve_path ["sandbox"] Sysfs.new ["class"]) ≠
    Option.map Prod.fst (Sysfs.resolve_path ["sys"] Sysfs.new ["class"]) := by
  decide

/-- Claim C7 amended: the store exposes only the constructor new(), which
takes no root, never fails, performs no validation, and yields an empty cache;
identifiers are resolved at call time against the ambient module-level root
(the constant "/sys" in production builds, a thread-local set once per thread
in test builds), so a fresh store resolves an identifier to the ambient root
joined with the identifier. -/
theorem sysfs_new_resolves_against_ambient_root :
    Sysfs.new.path_cache = [] ∧
    ∀ root ap, Sysfs.resolve_path root Sysfs.new ap =
      some (Sysfs.resolve_attribute_path root ap,
        Sysfs.cache_path Sysfs.new ap (Sysfs.resolve_attribute_path root ap)) :=
  ⟨rfl, fun root ap => resolve_path_of_uncached root Sysfs.new ap rfl⟩

/-- Claim C10: the unix conversions form a round-trip: converting a CString to
a PathBuf and back returns the same CString; converting a nul-free PathBuf to
a CString and back returns the same PathBuf; and path_buf_to_c_string fails
exactly when its input contains a nul byte. -/
theorem convert_roundtrip (c : CStringM) (p : BPath) :
    path_buf_to_c_string (c_string_to_path_buf c) = .ok c ∧
    (∀ c', path_buf_to_c_string p = .ok c' → c_string_to_path_buf c' = p) ∧
    (path_buf_to_c_string p = .error () ↔ 0 ∈ p) := by
  refine ⟨?_, ?_, ?_⟩
  · rw [c_string_to_path_buf, path_buf_to_c_string, dif_neg c.property]
  · intro c' h
    rw [path_buf_to_c_string] at h
    split at h
    · exact absurd h (by simp)
    · simp only [Except.ok.injEq] at h
      rw [← h, c_string_to_path_buf]
  · by_cases h0 : 0 ∈ p
    · simp [path_buf_to_c_string, h0]
    · simp [path_buf_to_c_string, h0]

theorem convert_roundtrip_witness :
    path_buf_to_c_string (c_string_to_path_buf ⟨[47, 102], by decide⟩) =
      .ok ⟨[47, 102], by decide⟩ ∧
    c_string_to_path_buf ⟨[47, 102], by decide⟩ = [47, 102] ∧
    (path_buf_to_c_string [47, 0] = .error () ↔ 0 ∈ ([47, 0] : BPath)) :=
  ⟨(convert_roundtrip ⟨[47, 102], by decide⟩ [47, 102]).1,
   (convert_roundtrip ⟨[47, 102], by decide⟩ [47, 102]).2.1
     ⟨[47, 102], by decide⟩ (by decide),
   (convert_roundtrip ⟨[47, 102], by decide⟩ [47, 0]).2.2⟩

/-! ## Lemmas about the temp-dir template -/

theorem zero_not_mem_xSuffix : 0 ∉ xSuffix := by decide

theorem get_temp_dir_template_of_nul (tempDir : BPath) (h0 : 0 ∈ tempDir) :
    get_temp_dir_template tempDir = .error () := by
  rw [get_temp_dir_template, path_buf_to_c_string,
    dif_pos (List.mem_append.mpr (Or.inl h0))]

theorem get_temp_dir_template_of_no_nul (tempDir : BPath)
    (hx : 0 ∉ tempDir ++ xSuffix) :
    get_temp_dir_template tempDir = .ok ⟨tempDir ++ xSuffix, hx⟩ := by
  rw [get_temp_dir_template, path_buf_to_c_string, dif_neg hx]

theorem template_val (tempDir : BPath) (tpl : CStringM)
    (h : get_temp_dir_template tempDir = .ok tpl) :
    tpl.val = tempDir ++ xSuffix := by
  rw [get_temp_dir_template, path_buf_to_c_string] at h
  split at h
  · exact absurd h (by simp)
  · simp only [Except.ok.injEq] at h
    rw [← h]

theorem create_temp_dir_of_template_ok (mk : MkdtempFn) (tempDir : BPath)
    (w : SysWorld) (tpl : CStringM) (h : get_temp_dir_template tempDir = .ok tpl) :
    create_temp_dir mk tempDir w =
      match mk tpl w with
      | (none, w') => .error (.osError w'.errnoVal)
      | (some buf, w') => .ok (c_string_to_path_buf buf, w') := by
  simp [create_temp_dir, h]

theorem create_temp_dir_of_template_error (mk : MkdtempFn) (tempDir : BPath)
    (w : SysWorld) (h : get_temp_dir_template tempDir = .error ()) :
    create_temp_dir mk tempDir w = .error .nulError := by
  simp [create_temp_dir, h]

/-! ## A concrete mkdtemp model used to instantiate the oracle hypotheses -/

/-- Replace the six trailing placeholder bytes of a buffer, the first of them
by x. -/
def replaceLast6 (l : List Nat) (x : Nat) : List Nat :=
  l.take (l.length - 6) ++ [x, 88, 88, 88, 88, 88]

/-- Deterministic model of mkdtemp: substitutes the placeholders using a name
derived from how many directories exist, creates the directory when the name
is free, and fails (null return, errno set to EEXIST = 17) otherwise. -/
def mkCounter : MkdtempFn := fun tmpl w =>
  let name := replaceLast6 tmpl.val (65 + w.dirs.length % 26)
  if h : 6 ≤ tmpl.val.length ∧ 0 ∉ name ∧ name ∉ w.dirs then
    (some ⟨name, h.2.1⟩, { w with dirs := name :: w.dirs })
  else (none, { w with errnoVal := 17 })

theorem mkCounter_fresh : MkdtempCreatesFresh mkCounter := by
  intro tmpl w out w' h
  simp only [mkCounter] at h
  split at h
  · next hcond =>
    simp only [Prod.mk.injEq, Option.some.injEq] at h
    obtain ⟨ho, hw⟩ := h
    constructor
    · rw [← ho]
      exact hcond.2.2
    · rw [← hw, ← ho]
      exact List.mem_cons_self _ _
  · simp at h

theorem mkCounter_suffix : MkdtempMutatesSuffix mkCounter := by
  intro tmpl w out w' h
  simp only [mkCounter] at h
  split at h
  · next hcond =>
    obtain ⟨h6, hnul, hfree⟩ := hcond
    simp only [Prod.mk.injEq, Option.some.injEq] at h
    obtain ⟨ho, hw⟩ := h
    have hval : out.val = replaceLast6 tmpl.val (65 + w.dirs.length % 26) := by
      rw [← ho]
    have hlen : (tmpl.val.take (tmpl.val.length - 6)).length = tmpl.val.length - 6 := by
      rw [List.length_take]
      omega
    refine ⟨?_, ?_, ?_⟩
    · rw [hval, replaceLast6, List.length_append, hlen]
      simp only [List.length_cons, List.length_nil]
      omega
    · rw [hval, replaceLast6,
        List.take_append_of_le_length (le_of_eq hlen.symm), List.take_take,
        min_self]
    · rw [← hw, hval]
      exact List.mem_cons_self _ _
  · simp at h

/-- Claim C4: create_temp_dir fails exactly when the template contains an
embedded nul byte (the NulError converted to an io::Error) or mkdtemp returns
null; on the null branch the returned error wraps the last-error channel value
of the machine state exactly as mkdtemp left it, read before any other
fallible operation; when the template is nul-free and mkdtemp succeeds, the
call succeeds with the path read back from the mutated buffer. -/
theorem create_temp_dir_error_conditions (mk : MkdtempFn) (tempDir : BPath)
    (w : SysWorld) :
    (create_temp_dir mk tempDir w = .error .nulError ↔ 0 ∈ tempDir) ∧
    (∀ tpl w', get_temp_dir_template tempDir = .ok tpl →
      mk tpl w = (none, w') →
      create_temp_dir mk tempDir w = .error (.osError w'.errnoVal)) ∧
    (∀ tpl out w', get_temp_dir_template tempDir = .ok tpl →
      mk tpl w = (some out, w') →
      create_temp_dir mk tempDir w = .ok (c_string_to_path_buf out, w')) := by
  refine ⟨⟨?_, ?_⟩, ?_, ?_⟩
  · intro h
    by_contra h0
    have hx : 0 ∉ tempDir ++ xSuffix := by
      intro hm
      rcases List.mem_append.mp hm with hm | hm
      · exact h0 hm
      · exact zero_not_mem_xSuffix hm
    rw [create_temp_dir_of_template_ok mk tempDir w ⟨tempDir ++ xSuffix, hx⟩
      (get_temp_dir_template_of_no_nul tempDir hx)] at h
    rcases hmk : mk ⟨tempDir ++ xSuffix, hx⟩ w with ⟨res, w'⟩
    rw [hmk] at h
    cases res <;> simp at h
  · intro h0
    exact create_temp_dir_of_template_error mk tempDir w
      (get_temp_dir_template_of_nul tempDir h0)
  · intro tpl w' htpl hmk
    rw [create_temp_dir_of_template_ok mk tempDir w tpl htpl, hmk]
  · intro tpl out w' htpl hmk
    rw [create_temp_dir_of_template_ok mk tempDir w tpl htpl, hmk]

theorem create_temp_dir_error_conditions_witness :
    create_temp_dir mkCounter [0] ⟨[], [], 0⟩ = .error .nulError ∧
    create_temp_dir mkCounter [116] ⟨[[116, 47, 66, 88, 88, 88, 88, 88]], [], 5⟩ =
      .error (.osError 17) :=
  ⟨(create_temp_dir_error_conditions mkCounter [0] ⟨[], [], 0⟩).1.mpr (by decide),
   (create_temp_dir_error_conditions mkCounter [116]
      ⟨[[116, 47, 66, 88, 88, 88, 88, 88]], [], 5⟩).2.1
     ⟨[116, 47, 88, 88, 88, 88, 88, 88], by decide⟩
     ⟨[[116, 47, 66, 88, 88, 88, 88, 88]], [], 17⟩ (by decide) (by decide)⟩

/-- Claim C5: under the mkdtemp contract (on success the named directory did
not exist before the call and exists after it), every successful
create_temp_dir call returns a path that did not exist immediately before the
call and exists afterwards; hence two sequential successful calls return
distinct paths, the second being distinct from every directory the operation
currently has outstanding. -/
theorem create_temp_dir_unique (mk : MkdtempFn) (tempDir : BPath)
    (w w1 w2 : SysWorld) (p1 p2 : BPath)
    (hmk : MkdtempCreatesFresh mk)
    (h1 : create_temp_dir mk tempDir w = .ok (p1, w1))
    (h2 : create_temp_dir mk tempDir w1 = .ok (p2, w2)) :
    p1 ∉ w.dirs ∧ p1 ∈ w1.dirs ∧ p2 ∉ w1.dirs ∧ p2 ∈ w2.dirs ∧ p1 ≠ p2 := by
  by_cases h0 : 0 ∈ tempDir
  · rw [create_temp_dir_of_template_error mk tempDir w
      (get_temp_dir_template_of_nul tempDir h0)] at h1
    exact absurd h1 (by simp)
  · have hx : 0 ∉ tempDir ++ xSuffix := by
      intro hm
      rcases List.mem_append.mp hm with hm | hm
      · exact h0 hm
      · exact zero_not_mem_xSuffix hm
    have htpl := get_temp_dir_template_of_no_nul tempDir hx
    rw [create_temp_dir_of_template_ok mk tempDir w ⟨tempDir ++ xSuffix, hx⟩ htpl] at h1
    rw [create_temp_dir_of_template_ok mk tempDir w1 ⟨tempDir ++ xSuffix, hx⟩ htpl] at h2
    rcases hmk1 : mk ⟨tempDir ++ xSuffix, hx⟩ w with ⟨res1, w1'⟩
    rw [hmk1] at h1
    cases res1 with
    | none => simp at h1
    | some out1 =>
      simp only [Except.ok.injEq, Prod.mk.injEq] at h1
      obtain ⟨hp1, hw1⟩ := h1
      rcases hmk2 : mk ⟨tempDir ++ xSuffix, hx⟩ w1 with ⟨res2, w2'⟩
      rw [hmk2] at h2
      cases res2 with
      | none => simp at h2
      | some out2 =>
        simp only [Except.ok.injEq, Prod.mk.injEq] at h2
        obtain ⟨hp2, hw2⟩ := h2
        obtain ⟨hfree1, hmem1⟩ := hmk _ _ _ _ hmk1
        obtain ⟨hfree2, hmem2⟩ := hmk _ _ _ _ hmk2
        rw [c_string_to_path_buf] at hp1 hp2
        refine ⟨hp1 ▸ hfree1, ?_, hp2 ▸ hfree2, ?_, ?_⟩
        · rw [← hp1, ← hw1]
          exact hmem1
        · rw [← hp2, ← hw2]
          exact hmem2
        · intro he
          apply hp2 ▸ hfree2
          rw [← he, ← hp1, ← hw1]
          exact hmem1

theorem create_temp_dir_unique_witness :
    [116, 47, 65, 88, 88, 88, 88, 88] ∉ (⟨[], [], 0⟩ : SysWorld).dirs ∧
    [116, 47, 65, 88, 88, 88, 88, 88] ∈
      (⟨[[116, 47, 65, 88, 88, 88, 88, 88]], [], 0⟩ : SysWorld).dirs ∧
    [116, 47, 66, 88, 88, 88, 88, 88] ∉
      (⟨[[116, 47, 65, 88, 88, 88, 88, 88]], [], 0⟩ : SysWorld).dirs ∧
    [116, 47, 66, 88, 88, 88, 88, 88] ∈
      (⟨[[116, 47, 66, 88, 88, 88, 88, 88], [116, 47, 65, 88, 88, 88, 88, 88]], [],
        0⟩ : SysWorld).dirs ∧
    [116, 47, 65, 88, 88, 88, 88, 88] ≠ [116, 47, 66, 88, 88, 88, 88, 88] :=
  create_temp_dir_unique mkCounter [116] ⟨[], [], 0⟩
    ⟨[[116, 47, 65, 88, 88, 88, 88, 88]], [], 0⟩
    ⟨[[116, 47, 66, 88, 88, 88, 88, 88], [116, 47, 65, 88, 88, 88, 88, 88]], [], 0⟩
    [116, 47, 65, 88, 88, 88, 88, 88] [116, 47, 66, 88, 88, 88, 88, 88]
    mkCounter_fresh (by decide) (by decide)

/-- Claim C6: under the mkdtemp contract (only the six trailing placeholder
bytes are mutated in place and the named directory exists afterwards), every
successful create_temp_dir call returns a path that exists as a directory,
lies under the platform temporary-file root (the temp dir followed by the
separator is a prefix of it), has the template's length, and is reconstructed
strictly from the buffer as returned by mkdtemp — not from the pre-call
template value. -/
theorem create_temp_dir_path_shape (mk : MkdtempFn) (tempDir : BPath)
    (w w' : SysWorld) (p : BPath) (tpl : CStringM)
    (hmk : MkdtempMutatesSuffix mk)
    (htpl : get_temp_dir_template tempDir = .ok tpl)
    (h : create_temp_dir mk tempDir w = .ok (p, w')) :
    p ∈ w'.dirs ∧
    p.take (tempDir.length + 1) = tempDir ++ [47] ∧
    p.length = tempDir.length + 7 ∧
    Option.map c_string_to_path_buf (mk tpl w).1 = some p ∧
    (mk tpl w).2 = w' := by
  rw [create_temp_dir_of_template_ok mk tempDir w tpl htpl] at h
  rcases hmk1 : mk tpl w with ⟨res, wr⟩
  rw [hmk1] at h
  cases res with
  | none => simp at h
  | some out =>
    simp only [Except.ok.injEq, Prod.mk.injEq] at h
    obtain ⟨hp, hw⟩ := h
    rw [c_string_to_path_buf] at hp
    obtain ⟨hlen, htake, hmem⟩ := hmk _ _ _ _ hmk1
    have hval := template_val tempDir tpl htpl
    have htl : tpl.val.length = tempDir.length + 7 := by
      rw [hval, List.length_append, xSuffix]
      simp
    refine ⟨?_, ?_, ?_, ?_, ?_⟩
    · rw [← hp, ← hw]
      exact hmem
    · have h1 : tpl.val.length - 6 = tempDir.length + 1 := by omega
      rw [h1] at htake
      rw [← hp, htake, hval, xSuffix, List.take_append]
      simp [List.take]
    · rw [← hp, hlen, htl]
    · simp [c_string_to_path_buf, hp]
    · exact hw

theorem create_temp_dir_path_shape_witness :
    [116, 47, 65, 88, 88, 88, 88, 88] ∈
      (⟨[[116, 47, 65, 88, 88, 88, 88, 88]], [], 0⟩ : SysWorld).dirs ∧
    List.take ([116] ++ [47]).length [116, 47, 65, 88, 88, 88, 88, 88] =
      [116] ++ [47] ∧
    List.length ([116, 47, 65, 88, 88, 88, 88, 88] : BPath) = [116].length + 7 ∧
    Option.map c_string_to_path_buf
      (mkCounter ⟨[116, 47, 88, 88, 88, 88, 88, 88], by decide⟩ ⟨[], [], 0⟩).1 =
      some [116, 47, 65, 88, 88, 88, 88, 88] ∧
    (mkCounter ⟨[116, 47, 88, 88, 88, 88, 88, 88], by decide⟩ ⟨[], [], 0⟩).2 =
      ⟨[[116, 47, 65, 88, 88, 88, 88, 88]], [], 0⟩ :=
  create_temp_dir_path_shape mkCounter [116] ⟨[], [], 0⟩
    ⟨[[116, 47, 65, 88, 88, 88, 88, 88]], [], 0⟩
    [116, 47, 65, 88, 88, 88, 88, 88]
    ⟨[116, 47, 88, 88, 88, 88, 88, 88], by decide⟩
    mkCounter_suffix (by decide) (by decide)

/-- Claim C3: dropping a TemporaryDirectory removes the owned directory and
everything transitively beneath it, including files written under it during
its lifetime; the removal is best-effort: when the underlying removal fails
the failure is swallowed — the drop still returns a machine state (there is no
error channel) and leaves the world unchanged. -/
theorem temp_dir_drop_removes_all (removalOk : Bool) (t : TemporaryDirectory)
    (w : SysWorld) :
    (removalOk = true → ∀ q, isUnderPath t.path q = true →
      q ∉ (TemporaryDirectory.dropRun removalOk t w).dirs ∧
      assocLookup (TemporaryDirectory.dropRun removalOk t w).files q = none) ∧
    (removalOk = false → TemporaryDirectory.dropRun removalOk t w = w) := by
  constructor
  · intro hok q hq
    rw [TemporaryDirectory.dropRun, if_pos hok]
    constructor
    · simp only [remove_dir_all]
      simp [List.mem_filter, hq]
    · simp only [remove_dir_all]
      exact assocLookup_filter_eq_none w.files (isUnderPath t.path) q hq
  · intro hok
    rw [TemporaryDirectory.dropRun, if_neg (by simp [hok])]

theorem temp_dir_drop_removes_all_witness :
    ([116, 47, 65, 47, 102] ∉
      (TemporaryDirectory.dropRun true ⟨[116, 47, 65]⟩
        ⟨[[116, 47, 65], [116, 47, 65, 47, 102]],
          [([116, 47, 65, 47, 103], [49])], 0⟩).dirs ∧
     assocLookup (TemporaryDirectory.dropRun true ⟨[116, 47, 65]⟩
        ⟨[[116, 47, 65], [116, 47, 65, 47, 102]],
          [([116, 47, 65, 47, 103], [49])], 0⟩).files [116, 47, 65, 47, 102] =
       none) ∧
    TemporaryDirectory.dropRun false ⟨[116, 47, 65]⟩
      ⟨[[116, 47, 65]], [], 0⟩ = ⟨[[116, 47, 65]], [], 0⟩ :=
  ⟨(temp_dir_drop_removes_all true ⟨[116, 47, 65]⟩
      ⟨[[116, 47, 65], [116, 47, 65, 47, 102]],
        [([116, 47, 65, 47, 103], [49])], 0⟩).1 rfl
      [116, 47, 65, 47, 102] (by decide),
   (temp_dir_drop_removes_all false ⟨[116, 47, 65]⟩
      ⟨[[116, 47, 65]], [], 0⟩).2 rfl⟩

end OtterPi
